import Mathlib

set_option maxHeartbeats 1000000

/-!
Verification development for the SmartApply job-alert pipeline
(`app/utils.py`, `app/scraper.py`, `app/matcher.py`, `app/models.py`).

Python floats are idealised as real numbers; machine-level rounding is not
modelled.  External effects (HTTP fetches, the OpenAI embedding endpoint)
are passed in as oracle functions, and a Python exception is modelled as
`Except.error ()`.  Python truthiness tests (`if not user.cv_text`,
`if job.get('url')`, `if job_embedding_list`, `if matches`) are modelled by
the corresponding emptiness checks.
-/

namespace SmartApply

/-! ## app/utils.py -/

/-- ASCII model of Python's regex class for whitespace characters. -/
def isPySpace (c : Char) : Bool :=
  c = ' ' || c = '\t' || c = '\n' || c = '\x0d' || c = '\x0b' || c = '\x0c'

/-- ASCII model of Python's regex class for word characters. -/
def isPyWord (c : Char) : Bool :=
  c.isAlpha || c.isDigit || c = '_'

/-- The characters `clean_text`'s second substitution keeps:
removing every character matched by the class complement keeps
word characters, whitespace, and the punctuation `. , - : ; ( )`. -/
def isKeptChar (c : Char) : Bool :=
  isPyWord c || isPySpace c ||
    c = '.' || c = ',' || c = '-' || c = ':' || c = ';' || c = '(' || c = ')'

/-- First substitution of `clean_text`: every maximal whitespace run becomes
one space.  The Boolean records whether the previous character was
whitespace (i.e. whether we are inside a run that already emitted its space). -/
def collapseWs : Bool → List Char → List Char
  | _, [] => []
  | inRun, c :: rest =>
    if isPySpace c then
      if inRun then collapseWs true rest else ' ' :: collapseWs true rest
    else c :: collapseWs false rest

/-- Python `str.strip()`: drop leading and trailing whitespace. -/
def stripChars (l : List Char) : List Char :=
  ((l.dropWhile fun c => isPySpace c).reverse.dropWhile fun c => isPySpace c).reverse

/-- `app/utils.py::clean_text`: collapse whitespace runs, delete the
characters outside the kept class, then strip. -/
def clean_text (text : String) : String :=
  String.mk (stripChars ((collapseWs false text.data).filter isKeptChar))

/-- `app/utils.py::truncate_text`: `text[:max_length]` when the text is
longer than `max_length`, else the text unchanged. -/
def truncate_text (text : String) (max_length : ℕ) : String :=
  if text.length > max_length then String.mk (text.data.take max_length) else text

/-- A call of `clean_text` with a possibly-`None` argument.  On `None`,
`re.sub(r'\s+', ' ', None)` raises `TypeError` (there is no fallback in the
source); on a string it returns normally. -/
def clean_text_call : Option String → Except Unit String
  | none => .error ()
  | some s => .ok (clean_text s)

/-! ## app/scraper.py -/

/-- A scraped job record: the dict built by `_parse_job_card`,
`_parse_job_container`, `_parse_job_from_link` and `_generic_job_extraction`.
`url` is an `Option`: `GoZambiaScraper._parse_job_card` returns
`'url': None` when the title element carries no link. -/
structure RawJob where
  title : String
  company : String
  location : Option String
  description : String
  url : Option String
  source : String
deriving DecidableEq

/-- `GoZambiaScraper.fetch_jobs`, fetching pages `page, page+1, ...` with
`n` pages remaining.  A failing page is logged and skipped (`continue` moves
to the next page); a page with fewer than 20 records ends pagination
(`break`).  `fetchPage` is the oracle for `_fetch_page`. -/
def goZambiaFetchAux (fetchPage : ℕ → Except Unit (List RawJob)) :
    ℕ → ℕ → List RawJob
  | _, 0 => []
  | page, n+1 =>
    match fetchPage page with
    | .error _ => goZambiaFetchAux fetchPage (page+1) n
    | .ok jobs =>
      if jobs.length < 20 then jobs else jobs ++ goZambiaFetchAux fetchPage (page+1) n

/-- `GoZambiaScraper.fetch_jobs(max_pages)`: the loop starts at page 1. -/
def goZambia_fetch_jobs (fetchPage : ℕ → Except Unit (List RawJob))
    (max_pages : ℕ) : List RawJob :=
  goZambiaFetchAux fetchPage 1 max_pages

/-- `GreatZambiaJobsScraper.JOBS_URL`. -/
def gzjJobsUrl : String := "https://www.greatzambiajobs.com/jobs/"

/-- The pagination loop of `GreatZambiaJobsScraper.fetch_jobs`
(`while next_page and page_count < max_pages`), with fuel
`max_pages - page_count`.  The whole loop runs inside one `try`: the first
fetch failure ends it, keeping what earlier iterations collected (the `++`
in the caller and in the `.ok` branch).  `_get_next_page` catches its own
exceptions and returns `None`, so `nextPage` is a total function. -/
def gzjLoop (fetchPage : String → Except Unit (List RawJob))
    (nextPage : String → Option String) : ℕ → Option String → List RawJob
  | 0, _ => []
  | _+1, none => []
  | n+1, some url =>
    match fetchPage url with
    | .error _ => []
    | .ok jobs => jobs ++ gzjLoop fetchPage nextPage n (nextPage url)

/-- `GreatZambiaJobsScraper.fetch_jobs(max_pages)`: fetch the first page,
then follow pagination; a failure anywhere returns what was collected. -/
def greatZambiaJobs_fetch_jobs (fetchPage : String → Except Unit (List RawJob))
    (nextPage : String → Option String) (max_pages : ℕ) : List RawJob :=
  match fetchPage gzjJobsUrl with
  | .error _ => []
  | .ok jobs => jobs ++ gzjLoop fetchPage nextPage (max_pages - 1) (nextPage gzjJobsUrl)

/-- One page of GreatZambiaJobs markup as `_fetch_page` consumes it:
the elements returned by the container `find_all`, the candidate links of
the fallback `find_all`, and the match lists of the three regex patterns of
`_generic_job_extraction`. -/
structure GzjPage (C L G : Type) where
  containers : List C
  job_links : List L
  matches1 : List G
  matches2 : List G
  matches3 : List G

/-- `if job and job not in jobs: jobs.append(job)`. -/
def appendIfNew (jobs : List RawJob) : Option RawJob → List RawJob
  | none => jobs
  | some j => if j ∈ jobs then jobs else jobs ++ [j]

/-- `_generic_job_extraction`: three regex patterns, the first 20 matches of
each (`matches[:20]`), each match possibly yielding a record (`mkJob` models
the title-length and "apply" filters; a match failing them yields none). -/
def generic_job_extraction {G : Type} (mkJob : G → Option RawJob)
    (m1 m2 m3 : List G) : List RawJob :=
  (m1.take 20).filterMap mkJob ++ (m2.take 20).filterMap mkJob ++
    (m3.take 20).filterMap mkJob

/-- `GreatZambiaJobsScraper._fetch_page`: when no containers matched, parse
the first 50 candidate links (`job_links[:50]`); always walk the first 30
containers (`job_containers[:30]`, a no-op when none matched); if still
empty, fall back to `_generic_job_extraction`.  `parseContainer` and
`parseLink` model `_parse_job_container` / `_parse_job_from_link`, which
absorb their own exceptions and return `None`. -/
def gzj_fetch_page {C L G : Type} (parseContainer : C → Option RawJob)
    (parseLink : L → Option RawJob) (mkJob : G → Option RawJob)
    (page : GzjPage C L G) : List RawJob :=
  let jobs0 :=
    if page.containers.isEmpty then
      (page.job_links.take 50).foldl (fun js l => appendIfNew js (parseLink l)) []
    else []
  let jobs1 :=
    (page.containers.take 30).foldl (fun js c => appendIfNew js (parseContainer c)) jobs0
  if jobs1.isEmpty then
    generic_job_extraction mkJob page.matches1 page.matches2 page.matches3
  else jobs1

/-- Python dict assignment `d[k] = v` on an insertion-ordered dict:
replace the value in place when the key exists, else append the pair. -/
def pyDictInsert {α β : Type} [DecidableEq α] (k : α) (v : β) :
    List (α × β) → List (α × β)
  | [] => [(k, v)]
  | (k', v') :: rest =>
    if k' = k then (k', v) :: rest else (k', v') :: pyDictInsert k v rest

/-- The dedup key used by `scrape_all_jobs`: the url when present and
non-empty (Python truthiness of `job.get('url')`), else
`f"{job['title']}_{job['company']}"`. -/
def jobKey (job : RawJob) : String :=
  match job.url with
  | some u => if u = "" then job.title ++ "_" ++ job.company else u
  | none => job.title ++ "_" ++ job.company

/-- The `unique_jobs` dict of `scrape_all_jobs` after its loop. -/
def mergeDict (jobs : List RawJob) : List (String × RawJob) :=
  jobs.foldl (fun d job => pyDictInsert (jobKey job) job d) []

/-- `list(unique_jobs.values())`: the deduplicated record list. -/
def mergeJobs (jobs : List RawJob) : List RawJob :=
  (mergeDict jobs).map Prod.snd

/-- `scrape_all_jobs`: each scraper runs inside its own try/except and a
raising scraper contributes no records; the results are concatenated and
deduplicated by `jobKey`. -/
def scrape_all_jobs (gozambia greatzambia : Except Unit (List RawJob)) : List RawJob :=
  mergeJobs ((match gozambia with | .ok l => l | .error _ => []) ++
    (match greatzambia with | .ok l => l | .error _ => []))

/-! ## app/models.py — the row shapes the matcher reads and writes -/

/-- `models.User` (the fields the matcher touches). -/
structure UserRow where
  id : ℕ
  email : String
  cv_text : Option String

/-- `models.CVEmbedding`; the JSON text column holds a vector. -/
structure CVEmbeddingRow where
  user_id : ℕ
  embedding : List ℝ

/-- `models.Job`; `embedding` is a nullable JSON text column, and Python
truthiness makes a stored empty vector behave like a missing one. -/
structure JobRow where
  id : ℕ
  title : String
  company : String
  location : Option String
  description : String
  url : String
  embedding : Option (List ℝ)

/-- `models.JobAlert` (the MatchRecord). -/
structure JobAlertRow where
  user_id : ℕ
  job_id : ℕ
  match_score : ℝ
  email_sent : Bool

/-- The database state the matcher session sees.  `next_job_id` models the
SERIAL primary key `db.flush()` assigns to a newly added `Job`. -/
structure DB where
  users : List UserRow
  cv_embeddings : List CVEmbeddingRow
  jobs : List JobRow
  alerts : List JobAlertRow
  next_job_id : ℕ

/-! ## app/matcher.py -/

/-- The candidate dict `match_jobs_for_user` consumes
(`job_data['title']`, `['company']`, `.get('location')`, `['description']`,
`['url']`). -/
structure JobDict where
  title : String
  company : String
  location : Option String
  description : String
  url : String

/-- `np.dot` of two equal-length vectors. -/
def dotList (a b : List ℝ) : ℝ :=
  (List.zipWith (fun x y => x * y) a b).sum

/-- The sum of squares of a vector, so that `np.linalg.norm v` is
`Real.sqrt (sumSq v)`. -/
def sumSq (v : List ℝ) : ℝ :=
  (v.map fun x => x * x).sum

/-- `JobMatcher.compute_similarity`.  `np.dot` raises `ValueError` when the
two 1-D arrays have different lengths (shapes not aligned), modelled by the
error branch; otherwise the function returns `0.0` when either norm is zero
and the cosine quotient else. -/
noncomputable def compute_similarity (embedding1 embedding2 : List ℝ) : Except Unit ℝ :=
  if embedding1.length ≠ embedding2.length then .error ()
  else
    let dot_product := dotList embedding1 embedding2
    let norm1 := Real.sqrt (sumSq embedding1)
    let norm2 := Real.sqrt (sumSq embedding2)
    if norm1 = 0 ∨ norm2 = 0 then .ok 0
    else .ok (dot_product / (norm1 * norm2))

/-- `JobMatcher.__init__`: `self.similarity_threshold = 0.7`. -/
noncomputable def similarity_threshold : ℝ := 0.7

/-- `JobMatcher.get_embedding`: clean and truncate the text, then call the
provider (the OpenAI client, an oracle here).  A provider failure is logged
and re-raised — the `except` block ends in `raise`. -/
def get_embedding (provider : String → Except Unit (List ℝ)) (text : String) :
    Except Unit (List ℝ) :=
  provider (truncate_text (clean_text text) 8000)

/-- The tail of one iteration of the `for job_data in jobs` loop of
`match_jobs_for_user`, from `if job_embedding_list:` on: skip when the
embedding is missing or empty (Python falsiness), otherwise score and, when
`similarity >= self.similarity_threshold`, record the match and add a
`JobAlert` row. -/
noncomputable def scoreAndRecord (threshold : ℝ) (cv_embedding : List ℝ)
    (user_id job_id : ℕ) (job_embedding_list : Option (List ℝ)) (job_data : JobDict)
    (db : DB) (ms : List (JobDict × ℝ)) : Except Unit (DB × List (JobDict × ℝ)) :=
  match job_embedding_list with
  | none => .ok (db, ms)
  | some e =>
    if e.isEmpty then .ok (db, ms)
    else
      match compute_similarity cv_embedding e with
      | .error er => .error er
      | .ok similarity =>
        if similarity ≥ threshold then
          .ok ({ db with alerts := db.alerts ++ [⟨user_id, job_id, similarity, false⟩] },
            ms ++ [(job_data, similarity)])
        else .ok (db, ms)

/-- The `for job_data in jobs` loop of `match_jobs_for_user`.
`existing_job_ids` is the set of already-alerted job ids snapshotted BEFORE
the loop and never updated inside it.  A job whose url matches a persisted
job that is in that snapshot is skipped; a job with no persisted row gets an
embedding from the provider (a failure propagates: there is no try/except
around the loop) and a new `Job` row via `db.add` + `db.flush`. -/
noncomputable def matchLoop (provider : String → Except Unit (List ℝ)) (threshold : ℝ)
    (cv_embedding : List ℝ) (user_id : ℕ) (existing_job_ids : List ℕ) :
    List JobDict → DB → List (JobDict × ℝ) → Except Unit (DB × List (JobDict × ℝ))
  | [], db, ms => .ok (db, ms)
  | job_data :: rest, db, ms =>
    match db.jobs.find? (fun j => j.url = job_data.url) with
    | some existing_job =>
      if existing_job.id ∈ existing_job_ids then
        matchLoop provider threshold cv_embedding user_id existing_job_ids rest db ms
      else
        match scoreAndRecord threshold cv_embedding user_id existing_job.id
            existing_job.embedding job_data db ms with
        | .error er => .error er
        | .ok (db', ms') =>
          matchLoop provider threshold cv_embedding user_id existing_job_ids rest db' ms'
    | none =>
      match get_embedding provider (job_data.title ++ " " ++ job_data.description) with
      | .error er => .error er
      | .ok job_embedding =>
        let db' : DB :=
          { db with
            jobs := db.jobs ++ [⟨db.next_job_id, job_data.title, job_data.company,
              job_data.location, job_data.description, job_data.url, some job_embedding⟩],
            next_job_id := db.next_job_id + 1 }
        match scoreAndRecord threshold cv_embedding user_id db.next_job_id
            (some job_embedding) job_data db' ms with
        | .error er => .error er
        | .ok (db'', ms') =>
          matchLoop provider threshold cv_embedding user_id existing_job_ids rest db'' ms'

/-- `JobMatcher.match_jobs_for_user`.  Returns the committed session state
and the list of `(job_data, score)` matches.  A missing user or missing /
empty CV text returns empty; a missing cached CV embedding is generated via
the provider (a failure propagates) and committed; the already-alerted job
ids are snapshotted; then the candidate loop runs. -/
noncomputable def match_jobs_for_user (provider : String → Except Unit (List ℝ))
    (threshold : ℝ) (db : DB) (user_id : ℕ) (jobs : List JobDict) :
    Except Unit (DB × List (JobDict × ℝ)) :=
  match db.users.find? (fun u => u.id = user_id) with
  | none => .ok (db, [])
  | some user =>
    match user.cv_text with
    | none => .ok (db, [])
    | some ct =>
      if ct = "" then .ok (db, [])
      else
        match db.cv_embeddings.find? (fun r => r.user_id = user_id) with
        | none =>
          match get_embedding provider ct with
          | .error er => .error er
          | .ok cv_embedding =>
            let db' : DB :=
              { db with cv_embeddings := db.cv_embeddings ++ [⟨user_id, cv_embedding⟩] }
            matchLoop provider threshold cv_embedding user_id
              ((db'.alerts.filter fun a => a.user_id = user_id).map fun a => a.job_id)
              jobs db' []
        | some row =>
          matchLoop provider threshold row.embedding user_id
            ((db.alerts.filter fun a => a.user_id = user_id).map fun a => a.job_id)
            jobs db []

/-- The `for user in users` loop of `match_all_users`: each user's pass runs
bare — a failure inside `match_jobs_for_user` propagates and ends the loop —
and only a non-empty match list is bound in the result dict. -/
noncomputable def matchAllLoop (provider : String → Except Unit (List ℝ)) (threshold : ℝ)
    (jobs : List JobDict) :
    List UserRow → DB → List (ℕ × List (JobDict × ℝ)) →
      Except Unit (DB × List (ℕ × List (JobDict × ℝ)))
  | [], db, acc => .ok (db, acc)
  | u :: rest, db, acc =>
    match match_jobs_for_user provider threshold db u.id jobs with
    | .error er => .error er
    | .ok (db', ms) =>
      matchAllLoop provider threshold jobs rest db'
        (if ms.isEmpty then acc else pyDictInsert u.id ms acc)

/-- `JobMatcher.match_all_users`: iterate the users whose `cv_text` is not
NULL (the SQL filter) over the shared session state. -/
noncomputable def match_all_users (provider : String → Except Unit (List ℝ))
    (threshold : ℝ) (db : DB) (jobs : List JobDict) :
    Except Unit (DB × List (ℕ × List (JobDict × ℝ))) :=
  matchAllLoop provider threshold jobs (db.users.filter fun u => u.cv_text ≠ none) db []

/-! ## Dictionary lemmas for the dedup step -/

lemma keys_pyDictInsert {α β : Type} [DecidableEq α] (k : α) (v : β)
    (l : List (α × β)) :
    (pyDictInsert k v l).map Prod.fst =
      if k ∈ l.map Prod.fst then l.map Prod.fst else l.map Prod.fst ++ [k] := by
  induction l with
  | nil => simp [pyDictInsert]
  | cons q rest ih =>
    obtain ⟨k', v'⟩ := q
    by_cases h : k' = k
    · subst h; simp [pyDictInsert]
    · by_cases hm : k ∈ rest.map Prod.fst
      · simp [pyDictInsert, h, ih, hm, List.mem_cons, Ne.symm h]
      · simp [pyDictInsert, h, ih, hm, List.mem_cons, Ne.symm h]

lemma pyDictInsert_of_not_mem {α β : Type} [DecidableEq α] (k : α) (v : β)
    (l : List (α × β)) (h : k ∉ l.map Prod.fst) :
    pyDictInsert k v l = l ++ [(k, v)] := by
  induction l with
  | nil => simp [pyDictInsert]
  | cons q rest ih =>
    obtain ⟨k', v'⟩ := q
    simp only [List.map_cons, List.mem_cons] at h
    push_neg at h
    simp [pyDictInsert, Ne.symm h.1, ih h.2]

lemma pyDictInsert_mem_self {α β : Type} [DecidableEq α] (k : α) (v : β)
    (l : List (α × β)) (hmem : (k, v) ∈ l) (hnd : (l.map Prod.fst).Nodup) :
    pyDictInsert k v l = l := by
  induction l with
  | nil => cases hmem
  | cons q rest ih =>
    obtain ⟨k', v'⟩ := q
    simp only [List.map_cons, List.nodup_cons] at hnd
    rcases List.mem_cons.mp hmem with heq | hrest
    · obtain ⟨hk, hv⟩ := Prod.mk.injEq .. ▸ heq.symm
      simp [pyDictInsert, hk, hv]
    · have hk' : k' ≠ k := by
        rintro rfl
        exact hnd.1 (List.mem_map.mpr ⟨(k', v), hrest, rfl⟩)
      simp [pyDictInsert, hk', ih hrest hnd.2]

lemma mem_pyDictInsert {α β : Type} [DecidableEq α] {k : α} {v : β}
    {l : List (α × β)} {p : α × β} (hp : p ∈ pyDictInsert k v l) :
    p = (k, v) ∨ p ∈ l := by
  induction l with
  | nil => simpa [pyDictInsert] using hp
  | cons q rest ih =>
    obtain ⟨k', v'⟩ := q
    by_cases h : k' = k
    · simp only [pyDictInsert, if_pos h] at hp
      rcases List.mem_cons.mp hp with heq | hrest
      · subst h; left; simpa using heq
      · right; exact List.mem_cons_of_mem _ hrest
    · simp only [pyDictInsert, if_neg h] at hp
      rcases List.mem_cons.mp hp with heq | hrest
      · right; simp [heq]
      · rcases ih hrest with h1 | h2
        · left; exact h1
        · right; exact List.mem_cons_of_mem _ h2

/-- The fold of `scrape_all_jobs` keeps its keys distinct and keyed by
`jobKey`. -/
lemma foldl_insert_inv (a : List RawJob) :
    ∀ d : List (String × RawJob), (d.map Prod.fst).Nodup →
      (∀ p ∈ d, p.1 = jobKey p.2) →
      (((a.foldl (fun d job => pyDictInsert (jobKey job) job d) d).map Prod.fst).Nodup ∧
        ∀ p ∈ a.foldl (fun d job => pyDictInsert (jobKey job) job d) d, p.1 = jobKey p.2) := by
  induction a with
  | nil => intro d h1 h2; exact ⟨h1, h2⟩
  | cons j tl ih =>
    intro d h1 h2
    simp only [List.foldl_cons]
    apply ih
    · rw [keys_pyDictInsert]
      split
      · exact h1
      · simp only [List.nodup_append, List.nodup_cons]
        exact ⟨h1, by simp, by simpa using fun h => (by assumption : jobKey j ∉ d.map Prod.fst) h⟩
    · intro p hp
      rcases mem_pyDictInsert hp with rfl | hold
      · rfl
      · exact h2 p hold

lemma mergeDict_nodup_keys (a : List RawJob) : ((mergeDict a).map Prod.fst).Nodup :=
  (foldl_insert_inv a [] (by simp) (by simp)).1

lemma mergeDict_key_eq (a : List RawJob) : ∀ p ∈ mergeDict a, p.1 = jobKey p.2 :=
  (foldl_insert_inv a [] (by simp) (by simp)).2

/-- Folding the pairs of an assoc list with fresh distinct keys rebuilds it. -/
lemma foldl_insert_restore :
    ∀ rest d : List (String × RawJob), (∀ p ∈ rest, p.1 = jobKey p.2) →
      ((d ++ rest).map Prod.fst).Nodup →
      (rest.map Prod.snd).foldl (fun d job => pyDictInsert (jobKey job) job d) d = d ++ rest := by
  intro rest
  induction rest with
  | nil => intro d _ _; simp
  | cons q tl ih =>
    intro d hkeys hnd
    obtain ⟨k, v⟩ := q
    have hk : k = jobKey v := hkeys (k, v) (List.mem_cons_self _ _)
    have hknotin : k ∉ d.map Prod.fst := by
      intro hmem
      have : ¬ (d.map Prod.fst ++ (k :: tl.map Prod.fst)).Nodup := by
        intro hnodup
        exact (List.disjoint_of_nodup_append hnodup) hmem (List.mem_cons_self _ _)
      exact this (by simpa using hnd)
    simp only [List.map_cons, List.foldl_cons]
    rw [← hk, pyDictInsert_of_not_mem k v d hknotin]
    have := ih (d ++ [(k, v)]) (fun p hp => hkeys p (List.mem_cons_of_mem _ hp))
      (by simpa [List.append_assoc] using hnd)
    rw [this, List.append_assoc]
    simp

/-- Folding records that are already stored under their own key changes
nothing. -/
lemma foldl_insert_id :
    ∀ (vs : List RawJob) (d : List (String × RawJob)), (d.map Prod.fst).Nodup →
      (∀ j ∈ vs, (jobKey j, j) ∈ d) →
      vs.foldl (fun d job => pyDictInsert (jobKey job) job d) d = d := by
  intro vs
  induction vs with
  | nil => intro d _ _; rfl
  | cons j tl ih =>
    intro d hnd hmem
    simp only [List.foldl_cons]
    rw [pyDictInsert_mem_self _ _ _ (hmem j (List.mem_cons_self _ _)) hnd]
    exact ih d hnd fun x hx => hmem x (List.mem_cons_of_mem _ hx)

lemma mergeDict_mergeJobs (a : List RawJob) : mergeDict (mergeJobs a) = mergeDict a := by
  have h := foldl_insert_restore (mergeDict a) [] (mergeDict_key_eq a)
    (by simpa using mergeDict_nodup_keys a)
  simpa [mergeDict, mergeJobs] using h

/-- C7: deduplication is idempotent — merging `merge a ++ merge a` gives
back `merge a`, even as lists (hence certainly as URL sets), and the same
through `scrape_all_jobs`. -/
theorem c7_dedup_idempotent (a : List RawJob) :
    mergeJobs (mergeJobs a ++ mergeJobs a) = mergeJobs a ∧
    scrape_all_jobs (.ok (mergeJobs a)) (.ok (mergeJobs a)) = mergeJobs a := by
  have hmain : mergeDict (mergeJobs a ++ mergeJobs a) = mergeDict a := by
    have h1 : mergeDict (mergeJobs a ++ mergeJobs a) =
        (mergeJobs a).foldl (fun d job => pyDictInsert (jobKey job) job d)
          (mergeDict (mergeJobs a)) := by
      simp [mergeDict, List.foldl_append]
    rw [h1, mergeDict_mergeJobs]
    apply foldl_insert_id _ _ (mergeDict_nodup_keys a)
    intro j hj
    obtain ⟨p, hp, rfl⟩ := List.mem_map.mp hj
    have hkey := mergeDict_key_eq a p hp
    have : (jobKey p.2, p.2) = p := by
      rw [← hkey]
    rw [this]
    exact hp
  simp only [mergeJobs, scrape_all_jobs] at hmain ⊢
  rw [hmain]
  simp

lemma keys_mono_pyDictInsert {α β : Type} [DecidableEq α] {k k0 : α} {v : β}
    {l : List (α × β)} (h : k ∈ l.map Prod.fst) :
    k ∈ (pyDictInsert k0 v l).map Prod.fst := by
  rw [keys_pyDictInsert]
  split
  · exact h
  · exact List.mem_append_left _ h

lemma keys_mono_foldl_insert (a : List RawJob) :
    ∀ (d : List (String × RawJob)) (k : String), k ∈ d.map Prod.fst →
      k ∈ (a.foldl (fun d job => pyDictInsert (jobKey job) job d) d).map Prod.fst := by
  induction a with
  | nil => intro d k h; exact h
  | cons j tl ih =>
    intro d k h
    exact ih _ k (keys_mono_pyDictInsert h)

/-- Every folded record's key ends up among the dict's keys. -/
lemma mem_keys_foldl_insert (a : List RawJob) :
    ∀ (d : List (String × RawJob)) (j : RawJob), j ∈ a →
      jobKey j ∈ (a.foldl (fun d job => pyDictInsert (jobKey job) job d) d).map Prod.fst := by
  induction a with
  | nil => intro d j h; cases h
  | cons j0 tl ih =>
    intro d j h
    simp only [List.foldl_cons]
    rcases List.mem_cons.mp h with rfl | htl
    · apply keys_mono_foldl_insert tl
      rw [keys_pyDictInsert]
      split
      · assumption
      · exact List.mem_append_right _ (by simp)
    · exact ih _ j htl

/-- C4 counterexample: a record with `url = None` (a GoZambia card whose
title element has no link) is NOT dropped by `scrape_all_jobs` — it appears
in the merged output, so the output can contain URL-less jobs. -/
theorem c4_counterexample :
    (⟨"Driver", "Acme", none, "desc", none, "gozambia"⟩ : RawJob) ∈
        scrape_all_jobs (.ok [⟨"Driver", "Acme", none, "desc", none, "gozambia"⟩]) (.ok []) ∧
    (⟨"Driver", "Acme", none, "desc", none, "gozambia"⟩ : RawJob).url = none := by
  constructor
  · simp [scrape_all_jobs, mergeJobs, mergeDict, pyDictInsert]
  · rfl

/-- C4 as amended: a record lacking a URL is kept (not dropped) under the
fallback key `title_company`; deduplication holds for the fallback key just
as for URLs — the output carries pairwise distinct `jobKey`s and every input
record is represented by exactly the surviving record of its key. -/
theorem c4_amended (goz gzj : List RawJob) :
    ((scrape_all_jobs (.ok goz) (.ok gzj)).map jobKey).Nodup ∧
    ∀ j ∈ goz ++ gzj, ∃ j', j' ∈ scrape_all_jobs (.ok goz) (.ok gzj) ∧
      jobKey j' = jobKey j := by
  have hmapeq : ∀ a : List RawJob,
      ((mergeDict a).map Prod.snd).map jobKey = (mergeDict a).map Prod.fst := by
    intro a
    rw [List.map_map]
    exact List.map_congr_left fun p hp => (mergeDict_key_eq a p hp).symm
  constructor
  · show ((mergeJobs (goz ++ gzj)).map jobKey).Nodup
    rw [mergeJobs, hmapeq]
    exact mergeDict_nodup_keys _
  · intro j hj
    have hkey : jobKey j ∈ ((mergeDict (goz ++ gzj)).map Prod.snd).map jobKey := by
      rw [hmapeq]
      exact mem_keys_foldl_insert _ [] j hj
    obtain ⟨j', hj', hkeyeq⟩ := List.mem_map.mp hkey
    exact ⟨j', hj', hkeyeq⟩

/-- The concrete GoZambia fetch oracle for the C3 counterexample: page 1
raises, every later page returns one record. -/
def c3Fetch : ℕ → Except Unit (List RawJob) := fun p =>
  if p = 1 then .error ()
  else .ok [⟨"Clerk", "Beta", none, "d", some "https://www.gozambia.com/jobs/9", "gozambia"⟩]

/-- C3 counterexample: in `GoZambiaScraper.fetch_jobs` a page-fetch failure
does NOT stop pagination — with page 1 failing, the scraper still fetches
page 2 and returns its record, where the claim demands the empty list of
records collected before the failure. -/
theorem c3_counterexample :
    goZambia_fetch_jobs c3Fetch 3 =
      [⟨"Clerk", "Beta", none, "d", some "https://www.gozambia.com/jobs/9", "gozambia"⟩] ∧
    goZambia_fetch_jobs c3Fetch 3 ≠ [] := by
  refine ⟨?_, ?_⟩ <;>
    simp [goZambia_fetch_jobs, goZambiaFetchAux, c3Fetch]

/-- C3 as amended: the two scrapers react differently to a page-fetch
failure, and neither raises.  In `GreatZambiaJobsScraper.fetch_jobs` the
failure ends pagination — the loop contributes nothing from the failing
page on — and the call returns exactly the records already collected; in
`GoZambiaScraper.fetch_jobs` the failing page is skipped and pagination
continues with the next page. -/
theorem c3_amended :
    (∀ (fp : String → Except Unit (List RawJob)) (nx : String → Option String)
      (n : ℕ) (url : String), fp url = .error () → gzjLoop fp nx n (some url) = []) ∧
    (∀ (fp : String → Except Unit (List RawJob)) (nx : String → Option String)
      (mp : ℕ) (jobs1 : List RawJob) (u : String),
        fp gzjJobsUrl = .ok jobs1 → nx gzjJobsUrl = some u → fp u = .error () →
        greatZambiaJobs_fetch_jobs fp nx (mp + 2) = jobs1) ∧
    (∀ (fp : ℕ → Except Unit (List RawJob)) (page n : ℕ), fp page = .error () →
      goZambiaFetchAux fp page (n + 1) = goZambiaFetchAux fp (page + 1) n) := by
  have hstop : ∀ (fp : String → Except Unit (List RawJob)) (nx : String → Option String)
      (n : ℕ) (url : String), fp url = .error () → gzjLoop fp nx n (some url) = [] := by
    intro fp nx n url h
    cases n with
    | zero => rfl
    | succ n => simp [gzjLoop, h]
  refine ⟨hstop, ?_, ?_⟩
  · intro fp nx mp jobs1 u h1 h2 h3
    have : mp + 2 - 1 = mp + 1 := by omega
    simp [greatZambiaJobs_fetch_jobs, h1, h2, this, hstop fp nx (mp + 1) u h3]
  · intro fp page n h
    simp [goZambiaFetchAux, h]

lemma length_appendIfNew (jobs : List RawJob) (j? : Option RawJob) :
    (appendIfNew jobs j?).length ≤ jobs.length + 1 := by
  cases j? with
  | none => simp [appendIfNew]
  | some j =>
    simp only [appendIfNew]
    split
    · omega
    · simp

lemma length_foldl_appendIfNew {γ : Type} (f : γ → Option RawJob) :
    ∀ (l : List γ) (init : List RawJob),
      (l.foldl (fun js x => appendIfNew js (f x)) init).length ≤ init.length + l.length := by
  intro l
  induction l with
  | nil => intro init; simp
  | cons x xs ih =>
    intro init
    simp only [List.foldl_cons]
    calc (xs.foldl (fun js y => appendIfNew js (f y)) (appendIfNew init (f x))).length
        ≤ (appendIfNew init (f x)).length + xs.length := ih _
      _ ≤ (init.length + 1) + xs.length := by
          have := length_appendIfNew init (f x)
          omega
      _ = init.length + (x :: xs).length := by simp; omega

/-- C10: a single GreatZambiaJobs page yields a bounded record list — at
most 60 records whatever the markup holds — and the page is consumed
through its truncations only: the first 30 containers, the first 50
candidate links, and the first 20 matches of each generic pattern. -/
theorem c10_page_bound {C L G : Type} (parseContainer : C → Option RawJob)
    (parseLink : L → Option RawJob) (mkJob : G → Option RawJob)
    (page : GzjPage C L G) :
    (gzj_fetch_page parseContainer parseLink mkJob page).length ≤ 60 ∧
    gzj_fetch_page parseContainer parseLink mkJob page =
      gzj_fetch_page parseContainer parseLink mkJob
        { containers := page.containers.take 30, job_links := page.job_links.take 50,
          matches1 := page.matches1.take 20, matches2 := page.matches2.take 20,
          matches3 := page.matches3.take 20 } := by
  obtain ⟨cs, ls, m1, m2, m3⟩ := page
  have hgen : (generic_job_extraction mkJob m1 m2 m3).length ≤ 60 := by
    simp only [generic_job_extraction, List.length_append]
    have b1 := List.length_filterMap_le mkJob (m1.take 20)
    have b2 := List.length_filterMap_le mkJob (m2.take 20)
    have b3 := List.length_filterMap_le mkJob (m3.take 20)
    have t1 := List.length_take_le 20 m1
    have t2 := List.length_take_le 20 m2
    have t3 := List.length_take_le 20 m3
    omega
  constructor
  · rcases hcs : cs.isEmpty with hval | hval
    · have hne : ¬ cs.isEmpty = true := by simp [hcs]
      have hb := length_foldl_appendIfNew parseContainer (cs.take 30) ([] : List RawJob)
      have t := List.length_take_le 30 cs
      simp only [gzj_fetch_page, hcs, Bool.false_eq_true, if_neg, not_false_iff]
      split
      · exact hgen
      · simp only [List.length_nil] at hb
        omega
    · obtain rfl : cs = [] := List.isEmpty_iff.mp hcs
      have hb := length_foldl_appendIfNew parseLink (ls.take 50) ([] : List RawJob)
      have t := List.length_take_le 50 ls
      simp only [gzj_fetch_page, List.isEmpty_nil, if_pos, List.take_nil, List.foldl_nil]
      split
      · exact hgen
      · simp only [List.length_nil] at hb
        omega
  · cases cs <;>
      simp [gzj_fetch_page, generic_job_extraction, List.take_take, min_self]

/-! ## Claim C8: the text normaliser -/

/-- C8 counterexample: `clean_text` called on `None` raises `TypeError`
(`re.sub` requires a string); there is no empty-string fallback. -/
theorem c8_counterexample : clean_text_call none = Except.error () := rfl

lemma mem_collapseWs : ∀ (b : Bool) (l : List Char) (c : Char),
    c ∈ collapseWs b l → isPySpace c = true → c = ' ' := by
  intro b l
  induction l generalizing b with
  | nil => intro c hc; cases hc
  | cons x xs ih =>
    intro c hc hsp
    by_cases hx : isPySpace x
    · cases b with
      | true =>
        simp only [collapseWs, hx, if_pos, if_true] at hc
        exact ih true c hc hsp
      | false =>
        simp only [collapseWs, hx, if_pos] at hc
        rcases List.mem_cons.mp hc with rfl | hmem
        · rfl
        · exact ih true c hmem hsp
    · simp only [collapseWs, hx, Bool.false_eq_true, if_neg, not_false_iff] at hc
      rcases List.mem_cons.mp hc with rfl | hmem
      · exact absurd hsp (by simp [hx])
      · exact ih false c hmem hsp

lemma mem_stripChars {l : List Char} {c : Char} (h : c ∈ stripChars l) : c ∈ l := by
  simp only [stripChars, List.mem_reverse] at h
  have h1 := (List.dropWhile_sublist _).mem h
  rw [List.mem_reverse] at h1
  exact (List.dropWhile_sublist _).mem h1

lemma clean_text_chars (s : String) :
    ∀ c ∈ (clean_text s).data, isKeptChar c = true ∧ (isPySpace c = true → c = ' ') := by
  intro c hc
  have hc' : c ∈ stripChars ((collapseWs false s.data).filter isKeptChar) := hc
  have hfil := mem_stripChars hc'
  have hmem := List.mem_filter.mp hfil
  exact ⟨hmem.2, mem_collapseWs false s.data c hmem.1⟩

lemma truncate_text_le (s : String) (n : ℕ) : (truncate_text s n).length ≤ n := by
  by_cases h : s.length > n
  · simp only [truncate_text, if_pos h]
    show (s.data.take n).length ≤ n
    simp
  · simp only [truncate_text, if_neg h]
    omega

lemma truncate_text_data_subset (s : String) (n : ℕ) :
    ∀ c ∈ (truncate_text s n).data, c ∈ s.data := by
  intro c hc
  by_cases h : s.length > n
  · simp only [truncate_text, if_pos h] at hc
    exact (List.take_sublist _ _).mem hc
  · simpa [truncate_text, if_neg h] using hc

/-- C8 as amended: on a genuine string the normaliser is total — it keeps
only word characters, single spaces and the allowed punctuation, and the
truncation bounds the result at `max_length` (8000 at the embedding call
site) — but on `None` input `clean_text` raises `TypeError` instead of
falling back to the empty string. -/
theorem c8_amended (s : String) :
    clean_text_call (some s) = .ok (clean_text s) ∧
    clean_text_call none = .error () ∧
    (truncate_text (clean_text s) 8000).length ≤ 8000 ∧
    ∀ c ∈ (truncate_text (clean_text s) 8000).data,
      isKeptChar c = true ∧ (isPySpace c = true → c = ' ') := by
  refine ⟨rfl, rfl, truncate_text_le _ _, ?_⟩
  intro c hc
  exact clean_text_chars s c (truncate_text_data_subset _ _ c hc)

/-! ## Claim C5: the similarity scorer -/

lemma sumSq_nonneg (v : List ℝ) : 0 ≤ sumSq v := by
  apply List.sum_nonneg
  intro x hx
  obtain ⟨y, _, rfl⟩ := List.mem_map.mp hx
  exact mul_self_nonneg y

lemma sumSq_eq_zero_iff (v : List ℝ) : sumSq v = 0 ↔ ∀ x ∈ v, x = 0 := by
  induction v with
  | nil => simp [sumSq]
  | cons x xs ih =>
    have hx : (0:ℝ) ≤ x * x := mul_self_nonneg x
    have hxs : (0:ℝ) ≤ sumSq xs := sumSq_nonneg xs
    have hsum : sumSq (x :: xs) = x * x + sumSq xs := by simp [sumSq]
    rw [hsum, add_eq_zero_iff_of_nonneg hx hxs, mul_self_eq_zero]
    simp [ih]

lemma sqrt_sumSq_eq_zero_iff (v : List ℝ) :
    Real.sqrt (sumSq v) = 0 ↔ ∀ x ∈ v, x = 0 := by
  rw [Real.sqrt_eq_zero (sumSq_nonneg v), sumSq_eq_zero_iff]

/-- C5 counterexample: `compute_similarity` is not failure-free on every
pair of vectors — `np.dot` raises `ValueError` on a length mismatch (shapes
`(1,)` and `(2,)` are not aligned). -/
theorem c5_counterexample :
    compute_similarity [(1:ℝ)] [(1:ℝ), 2] = Except.error () := by
  simp [compute_similarity]

/-- C5 as amended: on any two vectors OF EQUAL LENGTH `compute_similarity`
never fails; it returns `0.0` exactly when told to by a zero norm — and a
norm is zero precisely for the all-zero vector — and otherwise the cosine
quotient `dot / (‖a‖ * ‖b‖)`. -/
theorem c5_similarity_total (a b : List ℝ) (h : a.length = b.length) :
    ∃ r : ℝ, compute_similarity a b = .ok r ∧
      (((∀ x ∈ a, x = 0) ∨ ∀ x ∈ b, x = 0) → r = 0) ∧
      ((∃ x ∈ a, x ≠ 0) → (∃ x ∈ b, x ≠ 0) →
        r = dotList a b / (Real.sqrt (sumSq a) * Real.sqrt (sumSq b))) ∧
      (Real.sqrt (sumSq a) = 0 ↔ ∀ x ∈ a, x = 0) := by
  by_cases hz : Real.sqrt (sumSq a) = 0 ∨ Real.sqrt (sumSq b) = 0
  · refine ⟨0, ?_, fun _ => rfl, ?_, sqrt_sumSq_eq_zero_iff a⟩
    · simp [compute_similarity, h, hz]
    · intro ⟨x, hxa, hxne⟩ ⟨y, hyb, hyne⟩
      exfalso
      rcases hz with hza | hzb
      · exact hxne ((sqrt_sumSq_eq_zero_iff a).mp hza x hxa)
      · exact hyne ((sqrt_sumSq_eq_zero_iff b).mp hzb y hyb)
  · refine ⟨dotList a b / (Real.sqrt (sumSq a) * Real.sqrt (sumSq b)), ?_, ?_, fun _ _ => rfl,
      sqrt_sumSq_eq_zero_iff a⟩
    · simp [compute_similarity, h, hz]
    · intro hall
      exfalso
      rcases hall with hva | hvb
      · exact (not_or.mp hz).1 ((sqrt_sumSq_eq_zero_iff a).mpr hva)
      · exact (not_or.mp hz).2 ((sqrt_sumSq_eq_zero_iff b).mpr hvb)

/-- C5 witness: the amended statement evaluated at the concrete equal-length
pair `[3, 4]` and `[4, 3]`. -/
theorem c5_witness :
    ∃ r : ℝ, compute_similarity [(3:ℝ), 4] [(4:ℝ), 3] = .ok r ∧
      (((∀ x ∈ [(3:ℝ), 4], x = 0) ∨ ∀ x ∈ [(4:ℝ), 3], x = 0) → r = 0) ∧
      ((∃ x ∈ [(3:ℝ), 4], x ≠ 0) → (∃ x ∈ [(4:ℝ), 3], x ≠ 0) →
        r = dotList [(3:ℝ), 4] [(4:ℝ), 3] /
          (Real.sqrt (sumSq [(3:ℝ), 4]) * Real.sqrt (sumSq [(4:ℝ), 3]))) ∧
      (Real.sqrt (sumSq [(3:ℝ), 4]) = 0 ↔ ∀ x ∈ [(3:ℝ), 4], x = 0) :=
  c5_similarity_total [(3:ℝ), 4] [(4:ℝ), 3] rfl

/-! ## Matcher step lemmas -/

lemma matchLoop_nil (provider : String → Except Unit (List ℝ)) (t : ℝ) (cv : List ℝ)
    (uid : ℕ) (eids : List ℕ) (db : DB) (ms : List (JobDict × ℝ)) :
    matchLoop provider t cv uid eids [] db ms = .ok (db, ms) := rfl

/-- One loop iteration on a candidate with no persisted job row:
the provider is called, the job row is created, and the score decides
between recording a match plus an alert (`s ≥ t`) and moving on. -/
lemma matchLoop_fresh_step (provider : String → Except Unit (List ℝ)) (t : ℝ)
    (cv : List ℝ) (uid : ℕ) (eids : List ℕ) (jd : JobDict) (rest : List JobDict)
    (db : DB) (ms : List (JobDict × ℝ)) (e : List ℝ) (s : ℝ)
    (hfind : db.jobs.find? (fun j => j.url = jd.url) = none)
    (hemb : get_embedding provider (jd.title ++ " " ++ jd.description) = .ok e)
    (hne : e.isEmpty = false)
    (hsim : compute_similarity cv e = .ok s) :
    (s ≥ t → matchLoop provider t cv uid eids (jd :: rest) db ms =
      matchLoop provider t cv uid eids rest
        { db with
          jobs := db.jobs ++ [⟨db.next_job_id, jd.title, jd.company, jd.location,
            jd.description, jd.url, some e⟩],
          alerts := db.alerts ++ [⟨uid, db.next_job_id, s, false⟩],
          next_job_id := db.next_job_id + 1 }
        (ms ++ [(jd, s)])) ∧
    (¬ s ≥ t → matchLoop provider t cv uid eids (jd :: rest) db ms =
      matchLoop provider t cv uid eids rest
        { db with
          jobs := db.jobs ++ [⟨db.next_job_id, jd.title, jd.company, jd.location,
            jd.description, jd.url, some e⟩],
          next_job_id := db.next_job_id + 1 } ms) := by
  constructor <;> intro hcmp <;>
    simp [matchLoop, hfind, hemb, scoreAndRecord, hne, hsim, hcmp]

/-- One loop iteration on a candidate whose persisted job is NOT in the
alerted-id snapshot: its stored embedding is reused (no provider call) and
the score decides as in the fresh case, `job_id` being the stored row's. -/
lemma matchLoop_seen_step (provider : String → Except Unit (List ℝ)) (t : ℝ)
    (cv : List ℝ) (uid : ℕ) (eids : List ℕ) (jd : JobDict) (rest : List JobDict)
    (db : DB) (ms : List (JobDict × ℝ)) (jrow : JobRow) (e : List ℝ) (s : ℝ)
    (hfind : db.jobs.find? (fun j => j.url = jd.url) = some jrow)
    (hid : jrow.id ∉ eids)
    (hrow : jrow.embedding = some e) (hne : e.isEmpty = false)
    (hsim : compute_similarity cv e = .ok s) :
    (s ≥ t → matchLoop provider t cv uid eids (jd :: rest) db ms =
      matchLoop provider t cv uid eids rest
        { db with alerts := db.alerts ++ [⟨uid, jrow.id, s, false⟩] }
        (ms ++ [(jd, s)])) ∧
    (¬ s ≥ t → matchLoop provider t cv uid eids (jd :: rest) db ms =
      matchLoop provider t cv uid eids rest db ms) := by
  constructor <;> intro hcmp <;>
    simp [matchLoop, hfind, hid, scoreAndRecord, hrow, hne, hsim, hcmp]

/-- One loop iteration on a candidate whose persisted job IS in the
alerted-id snapshot: skipped entirely. -/
lemma matchLoop_skip_step (provider : String → Except Unit (List ℝ)) (t : ℝ)
    (cv : List ℝ) (uid : ℕ) (eids : List ℕ) (jd : JobDict) (rest : List JobDict)
    (db : DB) (ms : List (JobDict × ℝ)) (jrow : JobRow)
    (hfind : db.jobs.find? (fun j => j.url = jd.url) = some jrow)
    (hid : jrow.id ∈ eids) :
    matchLoop provider t cv uid eids (jd :: rest) db ms =
      matchLoop provider t cv uid eids rest db ms := by
  simp [matchLoop, hfind, hid]

/-- `match_jobs_for_user` under a present user, non-empty CV text and a
cached CV embedding: it is the candidate loop over the cached vector and
the snapshot of already-alerted job ids. -/
lemma match_jobs_for_user_cached (provider : String → Except Unit (List ℝ)) (t : ℝ)
    (db : DB) (uid : ℕ) (user : UserRow) (ct : String) (row : CVEmbeddingRow)
    (jobs : List JobDict)
    (hu : db.users.find? (fun u => u.id = uid) = some user)
    (hcv : user.cv_text = some ct) (hct : ct ≠ "")
    (hrow : db.cv_embeddings.find? (fun r => r.user_id = uid) = some row) :
    match_jobs_for_user provider t db uid jobs =
      matchLoop provider t row.embedding uid
        ((db.alerts.filter fun a => a.user_id = uid).map fun a => a.job_id) jobs db [] := by
  simp [match_jobs_for_user, hu, hcv, hct, hrow]

/-! ## Claim C2: provider failure during CV embedding -/

/-- A provider that fails on every call. -/
def failProvider : String → Except Unit (List ℝ) := fun _ => .error ()

/-- Two users with CV text; only user 2 has a cached CV embedding, so a
pass over user 1 must call the provider. -/
def dbC2 : DB :=
  { users := [⟨1, "a@x.com", some "cv one"⟩, ⟨2, "b@x.com", some "cv two"⟩],
    cv_embeddings := [⟨2, [1]⟩], jobs := [], alerts := [], next_job_id := 1 }

/-- C2 counterexample: with user 1's CV embedding failing at the provider,
`match_all_users` itself returns the error — the failure DOES propagate out
of the per-user pass, aborting the whole run instead of leaving other
users' results unaffected. -/
theorem c2_counterexample :
    match_all_users failProvider similarity_threshold dbC2 [] = Except.error () := rfl

/-- C2 as amended: there is no per-user isolation — when the head user's
pass raises (e.g. the provider fails while embedding their CV),
`match_jobs_for_user` re-raises and `match_all_users` aborts with the
exception; later users are never processed and no result map exists. -/
theorem c2_provider_failure_aborts (provider : String → Except Unit (List ℝ))
    (threshold : ℝ) (db : DB) (jobs : List JobDict) (u : UserRow) (rest : List UserRow)
    (hu : db.users.filter (fun x => x.cv_text ≠ none) = u :: rest)
    (hf : match_jobs_for_user provider threshold db u.id jobs = .error ()) :
    match_all_users provider threshold db jobs = .error () := by
  unfold match_all_users
  rw [hu]
  simp [matchAllLoop, hf]

/-- C2 witness: both hypotheses of the amended theorem hold at the concrete
two-user state, and the conclusion follows by the theorem. -/
theorem c2_witness :
    dbC2.users.filter (fun x => x.cv_text ≠ none) =
      ⟨1, "a@x.com", some "cv one"⟩ :: [⟨2, "b@x.com", some "cv two"⟩] ∧
    match_jobs_for_user failProvider similarity_threshold dbC2 1 [] = .error () ∧
    match_all_users failProvider similarity_threshold dbC2 [] = .error () :=
  ⟨rfl, rfl, c2_provider_failure_aborts failProvider similarity_threshold dbC2 []
    ⟨1, "a@x.com", some "cv one"⟩ [⟨2, "b@x.com", some "cv two"⟩] rfl rfl⟩

/-! ## Claim C6: threshold inclusivity -/

/-- C6: in `match_jobs_for_user` the comparison with the configured
threshold is inclusive.  For a fresh candidate scoring exactly `s`: when
`s ≥ t` — equality included — the job is emitted as a match and a
`JobAlert` row with score `s` is created; when `s < t` the job is not
emitted and no alert row is created (the job row itself is persisted either
way). -/
theorem c6_threshold_inclusive (provider : String → Except Unit (List ℝ)) (t : ℝ)
    (db : DB) (uid : ℕ) (user : UserRow) (ct : String) (row : CVEmbeddingRow)
    (jd : JobDict) (e : List ℝ) (s : ℝ)
    (hu : db.users.find? (fun u => u.id = uid) = some user)
    (hcv : user.cv_text = some ct) (hct : ct ≠ "")
    (hrow : db.cv_embeddings.find? (fun r => r.user_id = uid) = some row)
    (hfind : db.jobs.find? (fun j => j.url = jd.url) = none)
    (hemb : get_embedding provider (jd.title ++ " " ++ jd.description) = .ok e)
    (hne : e.isEmpty = false)
    (hsim : compute_similarity row.embedding e = .ok s) :
    (s ≥ t → match_jobs_for_user provider t db uid [jd] =
      .ok ({ db with
        jobs := db.jobs ++ [⟨db.next_job_id, jd.title, jd.company, jd.location,
          jd.description, jd.url, some e⟩],
        alerts := db.alerts ++ [⟨uid, db.next_job_id, s, false⟩],
        next_job_id := db.next_job_id + 1 }, [(jd, s)])) ∧
    (s < t → match_jobs_for_user provider t db uid [jd] =
      .ok ({ db with
        jobs := db.jobs ++ [⟨db.next_job_id, jd.title, jd.company, jd.location,
          jd.description, jd.url, some e⟩],
        next_job_id := db.next_job_id + 1 }, [])) := by
  have hun := match_jobs_for_user_cached provider t db uid user ct row [jd] hu hcv hct hrow
  have hstep := matchLoop_fresh_step provider t row.embedding uid
    ((db.alerts.filter fun a => a.user_id = uid).map fun a => a.job_id)
    jd [] db [] e s hfind hemb hne hsim
  constructor
  · intro hge
    rw [hun, hstep.1 hge, matchLoop_nil]
    simp
  · intro hlt
    rw [hun, hstep.2 (not_le.mpr hlt), matchLoop_nil]

lemma real_sqrt_hundred : Real.sqrt 100 = 10 := by
  rw [show (100:ℝ) = 10 ^ 2 by norm_num]
  rw [Real.sqrt_sq]
  norm_num

/-- The similarity of the concrete pair used by the C6 witness: cosine of
`[1,0,0,0]` against `[7,7,1,1]` is exactly `7/10`, the matcher's threshold. -/
lemma sim_c6 : compute_similarity [(1:ℝ), 0, 0, 0] [(7:ℝ), 7, 1, 1] = .ok (7/10) := by
  have h1 : sumSq [(1:ℝ), 0, 0, 0] = 1 := by norm_num [sumSq]
  have h2 : sumSq [(7:ℝ), 7, 1, 1] = 100 := by norm_num [sumSq]
  simp only [compute_similarity, dotList, h1, h2, Real.sqrt_one, real_sqrt_hundred]
  norm_num

/-- The provider used by the C6 witness. -/
def provC6 : String → Except Unit (List ℝ) := fun _ => .ok [7, 7, 1, 1]

/-- State for the C6 witness: one user with a cached CV embedding. -/
def dbC6 : DB :=
  { users := [⟨1, "t@x.com", some "cv"⟩], cv_embeddings := [⟨1, [1, 0, 0, 0]⟩],
    jobs := [], alerts := [], next_job_id := 1 }

/-- The candidate of the C6 witness. -/
def jdC6 : JobDict := ⟨"Data Analyst", "Acme", none, "desc", "https://jobs.example/1"⟩

/-- C6 witness: a candidate scoring exactly the 0.7 threshold is emitted
with its alert row. -/
theorem c6_witness :
    match_jobs_for_user provC6 similarity_threshold dbC6 1 [jdC6] =
      .ok ({ dbC6 with
        jobs := dbC6.jobs ++ [⟨dbC6.next_job_id, jdC6.title, jdC6.company, jdC6.location,
          jdC6.description, jdC6.url, some [7, 7, 1, 1]⟩],
        alerts := dbC6.alerts ++ [⟨1, dbC6.next_job_id, 7/10, false⟩],
        next_job_id := dbC6.next_job_id + 1 }, [(jdC6, 7/10)]) :=
  (c6_threshold_inclusive provC6 similarity_threshold dbC6 1 ⟨1, "t@x.com", some "cv"⟩ "cv"
      ⟨1, [(1:ℝ), 0, 0, 0]⟩ jdC6 [7, 7, 1, 1] (7/10) rfl rfl (by decide) rfl rfl rfl rfl
      sim_c6).1 (by norm_num [similarity_threshold])

/-! ## Claim C9: the result map binds only users with matches -/

lemma matchAllLoop_values (provider : String → Except Unit (List ℝ)) (t : ℝ)
    (jobs : List JobDict) :
    ∀ (us : List UserRow) (db : DB) (acc : List (ℕ × List (JobDict × ℝ)))
      (db' : DB) (m : List (ℕ × List (JobDict × ℝ))),
      (∀ p ∈ acc, p.2 ≠ []) →
      matchAllLoop provider t jobs us db acc = .ok (db', m) →
      ∀ p ∈ m, p.2 ≠ [] := by
  intro us
  induction us with
  | nil =>
    intro db acc db' m hacc h
    simp only [matchAllLoop, Except.ok.injEq, Prod.mk.injEq] at h
    obtain ⟨-, rfl⟩ := h
    exact hacc
  | cons u rest ih =>
    intro db acc db' m hacc h
    rcases hres : match_jobs_for_user provider t db u.id jobs with er | pr
    · simp only [matchAllLoop, hres] at h
      exact Except.noConfusion h
    · obtain ⟨dbx, ms⟩ := pr
      simp only [matchAllLoop, hres] at h
      refine ih dbx _ db' m ?_ h
      intro p hp
      by_cases he : ms.isEmpty
      · rw [if_pos he] at hp
        exact hacc p hp
      · rw [if_neg he] at hp
        rcases mem_pyDictInsert hp with rfl | hold
        · simpa [List.isEmpty_iff] using he
        · exact hacc p hold

/-- C9: when `match_all_users` returns a result map, every bound user has a
non-empty match list — users whose pass produced nothing are absent. -/
theorem c9_nonempty_match_lists (provider : String → Except Unit (List ℝ)) (t : ℝ)
    (db : DB) (jobs : List JobDict) (db' : DB)
    (m : List (ℕ × List (JobDict × ℝ)))
    (h : match_all_users provider t db jobs = .ok (db', m)) :
    ∀ p ∈ m, p.2 ≠ [] :=
  matchAllLoop_values provider t jobs _ db [] db' m (by simp) h

/-- A provider returning the one-dimensional embedding `[1]` on every call. -/
def okOneProvider : String → Except Unit (List ℝ) := fun _ => .ok [(1:ℝ)]

/-- Cosine of `[1]` against itself is `1`. -/
lemma sim_one : compute_similarity [(1:ℝ)] [(1:ℝ)] = .ok 1 := by
  have h1 : sumSq [(1:ℝ)] = 1 := by norm_num [sumSq]
  simp only [compute_similarity, dotList, h1, Real.sqrt_one]
  norm_num

/-- State for the C9 witness: one user (id 5) with a cached CV embedding. -/
def dbC9 : DB :=
  { users := [⟨5, "w@x.com", some "cv"⟩], cv_embeddings := [⟨5, [1]⟩],
    jobs := [], alerts := [], next_job_id := 1 }

/-- The candidate of the C9 witness. -/
def jdC9 : JobDict := ⟨"Engineer", "Beta", none, "d", "https://jobs.example/9"⟩

/-- The state after the C9 witness run. -/
def dbC9' : DB :=
  { users := [⟨5, "w@x.com", some "cv"⟩], cv_embeddings := [⟨5, [1]⟩],
    jobs := [⟨1, "Engineer", "Beta", none, "d", "https://jobs.example/9", some [1]⟩],
    alerts := [⟨5, 1, 1, false⟩], next_job_id := 2 }

/-- The full C9 witness run: one user, one matching job, result map
`[(5, [(jdC9, 1)])]`. -/
lemma c9_run : match_all_users okOneProvider similarity_threshold dbC9 [jdC9] =
    .ok (dbC9', [(5, [(jdC9, 1)])]) := by
  have hge : (1:ℝ) ≥ similarity_threshold := by norm_num [similarity_threshold]
  have hmjfu : match_jobs_for_user okOneProvider similarity_threshold dbC9 5 [jdC9] =
      .ok (dbC9', [(jdC9, 1)]) := by
    have h0 : match_jobs_for_user okOneProvider similarity_threshold dbC9 5 [jdC9] =
        matchLoop okOneProvider similarity_threshold [1] 5 [] [jdC9] dbC9 [] := rfl
    rw [h0, (matchLoop_fresh_step okOneProvider similarity_threshold [1] 5 [] jdC9 []
      dbC9 [] [1] 1 rfl rfl rfl sim_one).1 hge]
    rfl
  have h1 : match_all_users okOneProvider similarity_threshold dbC9 [jdC9] =
      matchAllLoop okOneProvider similarity_threshold [jdC9]
        [⟨5, "w@x.com", some "cv"⟩] dbC9 [] := rfl
  rw [h1]
  simp only [matchAllLoop, hmjfu]
  rfl

/-- C9 witness: the theorem applied to the concrete successful run, at the
one bound pair of its result map. -/
theorem c9_witness : ((5 : ℕ), [(jdC9, (1:ℝ))]).2 ≠ [] :=
  c9_nonempty_match_lists okOneProvider similarity_threshold dbC9 [jdC9] dbC9'
    [(5, [(jdC9, 1)])] c9_run (5, [(jdC9, 1)]) (by simp)

/-! ## Claim C1: duplicate MatchRecords -/

/-- State for the C1 run: one user with a cached CV embedding, no persisted
jobs, no alerts. -/
def dbC1 : DB :=
  { users := [⟨1, "dup@x.com", some "cv"⟩], cv_embeddings := [⟨1, [1]⟩],
    jobs := [], alerts := [], next_job_id := 1 }

/-- The candidate of the C1 run; it appears twice in the candidate list. -/
def jdC1 : JobDict := ⟨"Driver", "Acme", none, "d", "https://jobs.example/dup"⟩

/-- The state after the C1 run: ONE job row but TWO `JobAlert` rows for the
pair (user 1, job 1). -/
def dbC1' : DB :=
  { users := [⟨1, "dup@x.com", some "cv"⟩], cv_embeddings := [⟨1, [1]⟩],
    jobs := [⟨1, "Driver", "Acme", none, "d", "https://jobs.example/dup", some [1]⟩],
    alerts := [⟨1, 1, 1, false⟩, ⟨1, 1, 1, false⟩], next_job_id := 2 }

/-- C1 failing run: a single `match_jobs_for_user` call whose candidate
list holds the same URL twice creates TWO `JobAlert` rows for the same
(user, job) pair — `existing_job_ids` is snapshotted before the loop and
never refreshed, so the second occurrence is re-scored and re-recorded.
This contradicts the `UniqueConstraint('user_id', 'job_id')` the model
itself declares ("Ensure unique user-job pairs"). -/
theorem c1_duplicate_alert_run :
    match_jobs_for_user okOneProvider similarity_threshold dbC1 1 [jdC1, jdC1] =
      .ok (dbC1', [(jdC1, 1), (jdC1, 1)]) ∧
    (dbC1'.alerts.filter fun a => a.user_id = 1 ∧ a.job_id = 1).length = 2 := by
  have hge : (1:ℝ) ≥ similarity_threshold := by norm_num [similarity_threshold]
  constructor
  · have h0 : match_jobs_for_user okOneProvider similarity_threshold dbC1 1 [jdC1, jdC1] =
        matchLoop okOneProvider similarity_threshold [1] 1 [] [jdC1, jdC1] dbC1 [] := rfl
    rw [h0, (matchLoop_fresh_step okOneProvider similarity_threshold [1] 1 [] jdC1 [jdC1]
      dbC1 [] [1] 1 rfl rfl rfl sim_one).1 hge]
    rw [(matchLoop_seen_step okOneProvider similarity_threshold [1] 1 [] jdC1 []
      ({ dbC1 with
        jobs := dbC1.jobs ++ [⟨dbC1.next_job_id, jdC1.title, jdC1.company, jdC1.location,
          jdC1.description, jdC1.url, some [1]⟩],
        alerts := dbC1.alerts ++ [⟨1, dbC1.next_job_id, 1, false⟩],
        next_job_id := dbC1.next_job_id + 1 })
      ([] ++ [(jdC1, 1)])
      ⟨1, "Driver", "Acme", none, "d", "https://jobs.example/dup", some [1]⟩ [1] 1
      rfl (by simp) rfl rfl sim_one).1 hge]
    rfl
  · rfl

end SmartApply
